import Mathlib

/-!
Verification of the rustbee daemon/client core against its specification.

The development shallowly embeds the parts of the repository the claims are
about:
 * `rustbee-common/src/constants.rs` — the `OutputCode` enumeration and its
   byte conversions (the panicking `From<u8>` is modelled as `Option`);
 * `rustbee-common/src/colors.rs` — the colour engine (`f64` arithmetic is
   modelled over `ℝ`; `powf` becomes `Real.rpow`);
 * `rustbee-daemon/src/main.rs` — the dispatcher `process_conn`, modelled as a
   pure function of the request buffer and an oracle (`Env`) that records the
   outcome of every BLE interaction the handler may perform;
 * the client library framing of `set_brightness`
   (`rustbee-common/src/bluetooth.rs`, `rustbee-common/src/device.rs`).
-/

namespace Rustbee

/-! ## OutputCode (`rustbee-common/src/constants.rs`, lines 36-74) -/

inductive OutputCode where
  | Success
  | Failure
  | DeviceNotFound
  | Streaming
  | StreamEOF
deriving DecidableEq, Repr

/-- `impl From<OutputCode> for u8` (constants.rs lines 64-74). -/
def outputCodeToU8 : OutputCode → Nat
  | .Success => 0
  | .Failure => 1
  | .DeviceNotFound => 2
  | .Streaming => 3
  | .StreamEOF => 4

/-- `impl From<u8> for OutputCode` (constants.rs lines 51-62).  The source
panics on any byte `≥ 5` (`x => panic!(..)`); the panic is modelled as
`none`. -/
def outputCodeFromU8 : Nat → Option OutputCode
  | 0 => some .Success
  | 1 => some .Failure
  | 2 => some .DeviceNotFound
  | 3 => some .Streaming
  | 4 => some .StreamEOF
  | _ => none

/-- Client-side response parsing, `receive_packet_from_daemon`
(bluetooth.rs lines 602-617): the first byte of the 20-byte response frame is
fed to `OutputCode::from`, the remaining 19 bytes are the payload.  Since the
byte conversion can panic, the parse is partial. -/
def receivePacketParse (buf : List Nat) : Option (OutputCode × List Nat) :=
  match outputCodeFromU8 (buf.headD 0) with
  | some code => some (code, buf.drop 1)
  | none => none

/-! ## Colour engine (`rustbee-common/src/colors.rs`)

`f64` values are modelled as real numbers; `powf` is `Real.rpow`, `powi 2` is
`^ (2 : ℕ)`, `f64::clamp(lo, hi)` is `max lo (min v hi)`. -/

structure Xy where
  x : ℝ
  y : ℝ
  brightness : Option ℝ

/-- Gamut vertex `RED` (colors.rs line 8). -/
def RED : Xy := ⟨0.6915, 0.3038, none⟩

/-- Gamut vertex `GREEN` (colors.rs line 9). -/
def GREEN : Xy := ⟨0.17, 0.7, none⟩

/-- Gamut vertex `BLUE` (colors.rs line 10). -/
def BLUE : Xy := ⟨0.1532, 0.0475, none⟩

/-- `Xy::is_within_color_gamut` (colors.rs lines 133-148), the barycentric
in-gamut test.  The source's `(0. ..=1.).contains(&lambda)` becomes the two
inequalities. -/
def isWithinColorGamut (p : Xy) : Prop :=
  let x := p.x
  let y := p.y
  let x1 := RED.x
  let y1 := RED.y
  let x2 := GREEN.x
  let y2 := GREEN.y
  let x3 := BLUE.x
  let y3 := BLUE.y
  let denominator := (y2 - y3) * (x1 - x3) + (x3 - x2) * (y1 - y3)
  let lambda1 := ((y2 - y3) * (x - x3) + (x3 - x2) * (y - y3)) / denominator
  let lambda2 := ((y3 - y1) * (x - x3) + (x1 - x3) * (y - y3)) / denominator
  let lambda3 := 1 - lambda1 - lambda2
  (0 ≤ lambda1 ∧ lambda1 ≤ 1) ∧ (0 ≤ lambda2 ∧ lambda2 ≤ 1) ∧
    (0 ≤ lambda3 ∧ lambda3 ≤ 1)

/-- `Xy::project_point_to_line_segment` (colors.rs lines 171-190). -/
noncomputable def projectPointToLineSegment (p a b : Xy) : Xy :=
  let abx := b.x - a.x
  let aby := b.y - a.y
  let apx := p.x - a.x
  let apy := p.y - a.y
  let t := max 0 (min ((apx * abx + apy * aby) / (abx * abx + aby * aby)) 1)
  ⟨a.x + t * abx, a.y + t * aby, none⟩

/-- The closure `euclidean_distance` of `closest_point_in_triangle`
(colors.rs lines 151-152): `powi(2)` then `powf(0.5)`. -/
noncomputable def euclideanDistance (a b : Xy) : ℝ :=
  ((a.x - b.x) ^ (2 : ℕ) + (a.y - b.y) ^ (2 : ℕ)) ^ ((0.5 : ℝ))

open Classical in
/-- `Xy::closest_point_in_triangle` (colors.rs lines 150-169). -/
noncomputable def closestPointInTriangle (p x1 x2 x3 : Xy) : Xy :=
  let p1 := projectPointToLineSegment p x1 x2
  let p2 := projectPointToLineSegment p x2 x3
  let p3 := projectPointToLineSegment p x3 x1
  let d1 := euclideanDistance p1 p
  let d2 := euclideanDistance p2 p
  let d3 := euclideanDistance p3 p
  if d1 < d2 ∧ d1 < d3 then p1
  else if d2 < d1 ∧ d2 < d3 then p2
  else p3

open Classical in
/-- The gamut-projection step shared by `Xy::to_rgb` (colors.rs lines 36-38)
and `From<Rgb> for Xy` (colors.rs lines 233-235):
`if !self.is_within_color_gamut() { closest_point_in_triangle(RED,GREEN,BLUE) }`. -/
noncomputable def projectToGamut (p : Xy) : Xy :=
  if ¬ isWithinColorGamut p then closestPointInTriangle p RED GREEN BLUE else p

structure Rgb where
  r : ℝ
  g : ℝ
  b : ℝ

open Classical in
/-- The raw chromaticity computation of `From<Rgb> for Xy`
(colors.rs lines 193-231), up to but excluding the gamut projection.
The two shadowing `let` bindings of lines 224-225 are reproduced verbatim:
the second binding's `x` refers to the already-normalised chromaticity. -/
noncomputable def xyFromRgbRaw (rgb : Rgb) : Xy :=
  let r := rgb.r / 255
  let g := rgb.g / 255
  let b := rgb.b / 255
  let red := if r > 0.04045 then ((r + 0.055) / (1.0 + 0.055)) ^ ((2.4 : ℝ)) else r / 12.92
  let green := if g > 0.04045 then ((g + 0.055) / (1.0 + 0.055)) ^ ((2.4 : ℝ)) else g / 12.92
  let blue := if b > 0.04045 then ((b + 0.055) / (1.0 + 0.055)) ^ ((2.4 : ℝ)) else b / 12.92
  let x := red * 0.4124 + green * 0.3576 + blue * 0.1805
  let y := red * 0.2126 + green * 0.7152 + blue * 0.0722
  let z := red * 0.0193 + green * 0.1192 + blue * 0.9505
  let brightness := y
  let x := x / (x + y + z)
  let y := y / (x + y + z)
  ⟨x, y, some brightness⟩

/-- `From<Rgb> for Xy` in full (colors.rs lines 193-239). -/
noncomputable def xyFromRgb (rgb : Rgb) : Xy :=
  projectToGamut (xyFromRgbRaw rgb)

open Classical in
/-- The specification's wording of the same chromaticity step:
`x = X/(X+Y+Z)`, `y = Y/(X+Y+Z)`, `brightness = Y`, both quotients taken over
the original tristimulus sum.  Kept separate from `xyFromRgbRaw` (which is
translated from the source) so the two can be compared. -/
noncomputable def xyFromRgbRawSpec (rgb : Rgb) : Xy :=
  let r := rgb.r / 255
  let g := rgb.g / 255
  let b := rgb.b / 255
  let red := if r > 0.04045 then ((r + 0.055) / (1.0 + 0.055)) ^ ((2.4 : ℝ)) else r / 12.92
  let green := if g > 0.04045 then ((g + 0.055) / (1.0 + 0.055)) ^ ((2.4 : ℝ)) else g / 12.92
  let blue := if b > 0.04045 then ((b + 0.055) / (1.0 + 0.055)) ^ ((2.4 : ℝ)) else b / 12.92
  let xx := red * 0.4124 + green * 0.3576 + blue * 0.1805
  let yy := red * 0.2126 + green * 0.7152 + blue * 0.0722
  let zz := red * 0.0193 + green * 0.1192 + blue * 0.9505
  ⟨xx / (xx + yy + zz), yy / (xx + yy + zz), some yy⟩

/-- The XYZ back-projection and inverse Wide-RGB-D65 matrix of `Xy::to_rgb`
(colors.rs lines 36-50), including the leading gamut projection.  Returns the
linear `(r, g, b)` channels before the normalisation of lines 52-69. -/
noncomputable def xyToLinearRgb (p : Xy) (brightness : ℝ) : ℝ × ℝ × ℝ :=
  let q := projectToGamut p
  let y := brightness
  let x := (y / q.y) * q.x
  let z := (y / q.y) * (1 - q.x - q.y)
  (x * 1.656492 - y * 0.354851 - z * 0.255038,
   -x * 0.707196 + y * 1.655397 + z * 0.036152,
   x * 0.051713 - y * 0.121364 + z * 1.011530)

open Classical in
/-- The pre-gamma channel normalisation of `Xy::to_rgb` (colors.rs lines
52-69): when the strictly largest channel exceeds `1`, the other two are
divided by it and it is set to `1`. -/
noncomputable def normalizeChannelsPre (r g b : ℝ) : ℝ × ℝ × ℝ :=
  if r > b ∧ r > g ∧ r > 1 then (1, g / r, b / r)
  else if g > b ∧ g > r ∧ g > 1 then (r / g, 1, b / g)
  else if b > r ∧ b > g ∧ b > 1 then (r / b, g / b, 1)
  else (r, g, b)

open Classical in
/-- The post-gamma channel normalisation of `Xy::to_rgb` (colors.rs lines
88-111); same rescaling, written in the source with a nested `if`. -/
noncomputable def normalizeChannelsPost (r g b : ℝ) : ℝ × ℝ × ℝ :=
  if r > b ∧ r > g then (if r > 1 then (1, g / r, b / r) else (r, g, b))
  else if g > b ∧ g > r then (if g > 1 then (r / g, 1, b / g) else (r, g, b))
  else if b > r ∧ b > g then (if b > 1 then (r / b, g / b, 1) else (r, g, b))
  else (r, g, b)

open Classical in
/-- sRGB gamma compression of `Xy::to_rgb` (colors.rs lines 71-86). -/
noncomputable def gammaCompress (v : ℝ) : ℝ :=
  if v ≤ 0.0031308 then 12.92 * v
  else (1.0 + 0.055) * v ^ ((1.0 : ℝ) / 2.4) - 0.055

/-- The channel triple fed into gamma compression by `Xy::to_rgb`: the linear
channels after the pre-gamma normalisation (colors.rs lines 40-69). -/
noncomputable def preGammaChannels (p : Xy) (brightness : ℝ) : ℝ × ℝ × ℝ :=
  let c := xyToLinearRgb p brightness
  normalizeChannelsPre c.1 c.2.1 c.2.2

/-- `Xy::to_rgb` in full (colors.rs lines 35-131). -/
noncomputable def toRgb (p : Xy) (brightness : ℝ) : Rgb :=
  let c := preGammaChannels p brightness
  let r := gammaCompress c.1
  let g := gammaCompress c.2.1
  let b := gammaCompress c.2.2
  let d := normalizeChannelsPost r g b
  ⟨d.1 * 255, d.2.1 * 255, d.2.2 * 255⟩

/-- The clamp-to-`[0,1]` operation the specification prescribes in place of
the rescaling variant.  Written from the spec's words, for comparison only. -/
noncomputable def clampUnit (v : ℝ) : ℝ := max 0 (min v 1)

/-! ## Command decoder (`rustbee-daemon/src/main.rs`) -/

/-- The daemon's `Command` enumeration (main.rs lines 27-39). -/
inductive Command where
  | Connect
  | PairAndTrust
  | Power
  | ColorRgb
  | ColorHex
  | ColorXy
  | Brightness
  | Disconnect
  | Name
  | SearchName
deriving DecidableEq, Repr

namespace flags

/-- Bit indexes from `constants.rs` lines 82-91 (1-based, as in the source). -/
def CONNECT : Nat := 1
def DISCONNECT : Nat := 2
def PAIR : Nat := 3
def POWER : Nat := 4
def COLOR_RGB : Nat := 5
def COLOR_HEX : Nat := 6
def COLOR_XY : Nat := 7
def BRIGHTNESS : Nat := 8
def NAME : Nat := 9
def SEARCH_NAME : Nat := 10

end flags

/-- `constants.rs` line 76-77: the GET/SET mode bytes. -/
def GETbyte : Nat := 0

def SETbyte : Nat := 1

/-- `get_commands_from_flags` (main.rs lines 382-420): each set bit pushes its
command, in the source's push order. -/
def getCommandsFromFlags (fl : Nat) : List Command :=
  (if (fl >>> (flags.CONNECT - 1)) &&& 1 = 1 then [Command.Connect] else []) ++
  (if (fl >>> (flags.PAIR - 1)) &&& 1 = 1 then [Command.PairAndTrust] else []) ++
  (if (fl >>> (flags.POWER - 1)) &&& 1 = 1 then [Command.Power] else []) ++
  (if (fl >>> (flags.COLOR_RGB - 1)) &&& 1 = 1 then [Command.ColorRgb] else []) ++
  (if (fl >>> (flags.COLOR_HEX - 1)) &&& 1 = 1 then [Command.ColorHex] else []) ++
  (if (fl >>> (flags.COLOR_XY - 1)) &&& 1 = 1 then [Command.ColorXy] else []) ++
  (if (fl >>> (flags.BRIGHTNESS - 1)) &&& 1 = 1 then [Command.Brightness] else []) ++
  (if (fl >>> (flags.DISCONNECT - 1)) &&& 1 = 1 then [Command.Disconnect] else []) ++
  (if (fl >>> (flags.NAME - 1)) &&& 1 = 1 then [Command.Name] else []) ++
  (if (fl >>> (flags.SEARCH_NAME - 1)) &&& 1 = 1 then [Command.SearchName] else [])

/-- The canonical execution order of §4.2 of the specification, which is also
the decoder's push order. -/
def canonicalCommandOrder : List Command :=
  [Command.Connect, Command.PairAndTrust, Command.Power, Command.ColorRgb,
   Command.ColorHex, Command.ColorXy, Command.Brightness, Command.Disconnect,
   Command.Name, Command.SearchName]

/-! ## Dispatcher model (`rustbee-daemon/src/main.rs`, `process_conn`)

`process_conn` is an async handler interleaving socket and BLE I/O.  It is
modelled as a pure function of the 19-byte request buffer and an oracle `Env`
recording the outcome of every device interaction the handler may perform.
The result collects the 20-byte response frames written to the stream and
whether the address still has a registry entry afterwards. -/

/-- Outcome of the `get_device` lookup guarded by the 30 s timeout
(main.rs lines 188-222): timeout elapsed, `Err` from `get_device`,
`Ok(None)` (not in range), or `Ok(Some(device))`. -/
inductive GetDev where
  | timeout
  | errGet
  | notFound
  | found
deriving DecidableEq, Repr

/-- Oracle for one `process_conn` run.  Boolean fields record whether the
corresponding fallible BLE call returns `Ok`; `Option` fields model
`Result` values carrying data; the `set*` fields depend on the bytes written.
`search` models the composite `search_devices_by_name` branch: it receives the
NUL-filtered query bytes and returns the streamed `(address, name)` byte lists,
or `none` when one of the branch's `unwrap`s panics before the first frame
(invalid UTF-8 query or a discovery-stream error). -/
structure Env where
  /-- `devices.get(&addr).is_some()` on entry (main.rs line 188). -/
  cached : Bool
  getDevice : GetDev
  /-- whether the cached entry already has `services` (main.rs line 239);
  a freshly inserted device never does. -/
  servicesSet : Bool
  /-- `is_device_connected` in the CONNECT-GET short circuit (line 228). -/
  isConnected : Option Bool
  /-- `try_pair` during the ready-ensure block (line 240). -/
  pairEnsure : Bool
  /-- `try_connect` during the ready-ensure block (line 248). -/
  connectEnsure : Bool
  /-- `set_services` during the ready-ensure block (line 256). -/
  setServicesEnsure : Bool
  /-- `try_connect` as the priority command (line 270). -/
  connectCmd : Bool
  /-- `try_pair` as the `PairAndTrust` command (line 278). -/
  pairCmd : Bool
  /-- `try_disconnect` as the `Disconnect` command (line 279). -/
  disconnectCmd : Bool
  setPower : Nat → Bool
  getPower : Option Bool
  setBrightness : Nat → Bool
  getBrightness : Option Nat
  setColor : List Nat → Bool
  getColor : Option (List Nat)
  /-- `get_name`: `Ok(Some bytes)`, `Ok(None)` or `Err` (names as UTF-8
  byte lists, as the dispatcher only uses `len` and `bytes`). -/
  getName : Option (Option (List Nat))
  search : List Nat → Option (List (List Nat × List Nat))

structure DispatchResult where
  /-- The `OUTPUT_LEN`-byte frames written to the stream, in order. -/
  frames : List (List Nat)
  /-- Whether the registry still holds an entry for the address. -/
  registryHasDevice : Bool
deriving DecidableEq, Repr

/-- The `res_to_u8!` macro (main.rs lines 42-46): `Ok → 0`, `Err → 1`. -/
def resCode (ok : Bool) : Nat := if ok then 0 else 1

/-- Sequential byte writes `buf[off + i] = bytes[i]`; `List.set` out of range
is the identity, matching the source's bound-checked `break`. -/
def writeBytes : List Nat → Nat → List Nat → List Nat
  | buf, _, [] => buf
  | buf, off, v :: rest => writeBytes (buf.set off v) (off + 1) rest

/-- `send_output_code` (main.rs lines 355-359): a zeroed frame with the code
in byte 0. -/
def outputCodeFrame (c : Nat) : List Nat := (List.replicate 20 0).set 0 c

/-- One `Streaming` frame of the name-search branch (main.rs lines 146-174):
code byte `Streaming`, the 6 address bytes at offsets 1.., then the name bytes
from offset `addr.len() + 1`, dropped past the end of the frame. -/
def searchFrame (addr nm : List Nat) : List Nat :=
  writeBytes (writeBytes ((List.replicate 20 0).set 0 3) 1 addr) (addr.length + 1) nm

/-- The `value` each loop iteration computes (main.rs lines 276-335); `none`
models `continue`. -/
def commandCode (env : Env) (set : Bool) (data : List Nat) : Command → Option Nat
  | .Connect => none
  | .SearchName => none
  | .PairAndTrust => some (resCode env.pairCmd)
  | .Disconnect => some (resCode env.disconnectCmd)
  | .Power =>
      if set then some (resCode (env.setPower (data.getD 0 0)))
      else match env.getPower with
        | some _ => some 0
        | none => some 1
  | .Brightness =>
      if set then some (resCode (env.setBrightness (data.getD 0 0)))
      else match env.getBrightness with
        | some _ => some 0
        | none => some 1
  | .ColorRgb =>
      if set then some (resCode (env.setColor (data.take 4)))
      else match env.getColor with
        | some _ => some 0
        | none => some 1
  | .ColorHex =>
      if set then some (resCode (env.setColor (data.take 4)))
      else match env.getColor with
        | some _ => some 0
        | none => some 1
  | .ColorXy =>
      if set then some (resCode (env.setColor (data.take 4)))
      else match env.getColor with
        | some _ => some 0
        | none => some 1
  | .Name =>
      match env.getName with
      | some _ => some 0
      | none => some 1

/-- One iteration of the command loop (main.rs lines 275-335): the payload
writes into `output_buf`, together with the `value` of `commandCode`. -/
def execCommand (env : Env) (set : Bool) (data : List Nat) (ob : List Nat) :
    Command → List Nat × Option Nat
  | .Connect => (ob, none)
  | .SearchName => (ob, none)
  | .PairAndTrust => (ob, some (resCode env.pairCmd))
  | .Disconnect => (ob, some (resCode env.disconnectCmd))
  | .Power =>
      if set then (ob, some (resCode (env.setPower (data.getD 0 0))))
      else match env.getPower with
        | some st => (ob.set 1 (if st then 1 else 0), some 0)
        | none => (ob, some 1)
  | .Brightness =>
      if set then (ob, some (resCode (env.setBrightness (data.getD 0 0))))
      else match env.getBrightness with
        | some v => (ob.set 1 v, some 0)
        | none => (ob, some 1)
  | .ColorRgb =>
      if set then (ob, some (resCode (env.setColor (data.take 4))))
      else match env.getColor with
        | some bytes => (writeBytes ob 1 bytes, some 0)
        | none => (ob, some 1)
  | .ColorHex =>
      if set then (ob, some (resCode (env.setColor (data.take 4))))
      else match env.getColor with
        | some bytes => (writeBytes ob 1 bytes, some 0)
        | none => (ob, some 1)
  | .ColorXy =>
      if set then (ob, some (resCode (env.setColor (data.take 4))))
      else match env.getColor with
        | some bytes => (writeBytes ob 1 bytes, some 0)
        | none => (ob, some 1)
  | .Name =>
      match env.getName with
      | some (some nm) =>
          let ob1 := writeBytes ob 1 (nm.take 19)
          (if nm.length > 19 then ((ob1.set 17 46).set 18 46).set 19 46 else ob1,
           some 0)
      | some none => (ob, some 0)
      | none => (ob, some 1)

/-- The command loop (main.rs lines 275-340): on `continue` the buffer is
untouched, otherwise `output_buf[0] = min(output_buf[0], value)`. -/
def runCommands (env : Env) (set : Bool) (data : List Nat) :
    List Command → List Nat → List Nat
  | [], ob => ob
  | c :: rest, ob =>
      let r := execCommand env set data ob c
      match r.2 with
      | none => runCommands env set data rest r.1
      | some v => runCommands env set data rest (r.1.set 0 (min (r.1.getD 0 0) v))

/-- `let mut output_buf = [0; OUTPUT_LEN]; output_buf[0] = u8::MAX`
(main.rs lines 126-127). -/
def initialOutputBuf : List Nat := (List.replicate 20 0).set 0 255

/-- The output buffer after the priority `CONNECT` (main.rs lines 269-273)
and the command loop (lines 275-340). -/
def loopOutput (env : Env) (fl : Nat) (set : Bool) (data : List Nat) :
    List Nat :=
  let commands := getCommandsFromFlags fl
  let afterPriority :=
    if Command.Connect ∈ commands then
      initialOutputBuf.set 0 (min (initialOutputBuf.getD 0 0) (resCode env.connectCmd))
    else initialOutputBuf
  let cmds := if Command.Connect ∈ commands then
      commands.filter (fun c => ¬ c = Command.Connect)
    else commands
  runCommands env set data cmds afterPriority

/-- The body of `process_conn` after the request buffer has been fully read
and split into `flags`, `set` and `data` (main.rs lines 122-344). -/
def processCore (env : Env) (fl : Nat) (set : Bool) (data : List Nat) :
    DispatchResult :=
  let commands := getCommandsFromFlags fl
  if Command.SearchName ∈ commands then
    match env.search (data.filter (fun b => ¬ b = 0)) with
    | none => ⟨[], env.cached⟩
    | some found =>
        if found = [] then ⟨[outputCodeFrame 2], env.cached⟩
        else ⟨(found.map fun d => searchFrame d.1 d.2) ++ [outputCodeFrame 4],
              env.cached⟩
  else
    let acquired : Option Nat :=
      if env.cached then none
      else match env.getDevice with
        | .timeout => some 2
        | .errGet => some 1
        | .notFound => some 2
        | .found => none
    match acquired with
    | some c => ⟨[outputCodeFrame c], false⟩
    | none =>
      if commands = [Command.Connect] ∧ set = false then
        match env.isConnected with
        | some st => ⟨[(initialOutputBuf.set 0 0).set 1 (if st then 1 else 0)], true⟩
        | none => ⟨[initialOutputBuf.set 0 1], true⟩
      else
        let servicesAlready := env.cached && env.servicesSet
        if servicesAlready = false ∧ env.pairEnsure = false then ⟨[], false⟩
        else if servicesAlready = false ∧ env.connectEnsure = false then ⟨[], false⟩
        else if servicesAlready = false ∧ env.setServicesEnsure = false then ⟨[], false⟩
        else
          if (loopOutput env fl set data).getD 0 0 = 255 then ⟨[], true⟩
          else ⟨[loopOutput env fl set data], true⟩

/-- Little-endian flags extraction, `((buf[7] as u16) << 8) | buf[6]`
(main.rs line 122). -/
def bufFlags (buf : List Nat) : Nat := ((buf.getD 7 0) <<< 8) ||| buf.getD 6 0

/-- `let set = buf[8] == SET` (main.rs line 123). -/
def bufSet (buf : List Nat) : Bool := buf.getD 8 0 == SETbyte

/-- `process_conn` on a fully read 19-byte request buffer
(main.rs lines 107-348). -/
def processConn (env : Env) (buf : List Nat) : DispatchResult :=
  processCore env (bufFlags buf) (bufSet buf) (buf.drop 9)

/-- The per-command codes produced by one dispatcher run: the priority
`CONNECT` first when present (main.rs lines 269-273), then the loop's codes in
list order (`Connect`/`SearchName` contribute nothing, as `continue`). -/
def executedCodes (env : Env) (set : Bool) (data : List Nat)
    (cmds : List Command) : List Nat :=
  if Command.Connect ∈ cmds then
    resCode env.connectCmd ::
      ((cmds.filter fun c => ¬ c = Command.Connect).filterMap
        (commandCode env set data))
  else cmds.filterMap (commandCode env set data)

/-! ## Client library framing (`rustbee-common/src/bluetooth.rs`,
`rustbee-common/src/device.rs`) -/

/-- The client frame layout of `_send_packet_to_daemon` (bluetooth.rs lines
573-600): 6 address bytes, `flags & 0xff`, `flags >> 8`, then the 11 data
bytes (mode byte first). -/
def mkBuffer (addr : List Nat) (fl : Nat) (mode : Nat) (data : List Nat) :
    List Nat :=
  (addr.take 6 ++ List.replicate (6 - addr.length) 0) ++
    [fl &&& 255, (fl >>> 8) &&& 255] ++ [mode] ++ data

/-- The brightness byte computed by the client `set_brightness`
(bluetooth.rs lines 423-431, device.rs lines 141-149):
`(((value as f32) / 100.) * 0xff as f32) as u8`.  For `value ∈ [0, 255]` the
`f32` computation and truncating cast coincide with the exact floor
`value * 255 / 100` (the relative rounding error of the two `f32` operations
is below `2⁻²⁰` while the exact value is never within `0.05` below an
integer), so the byte is modelled as natural-number division. -/
def setBrightnessByte (pct : Nat) : Nat := pct * 255 / 100

/-- The 11-byte data block built by the client `set_brightness`:
`buf[0] = SET`, `buf[1]` the scaled byte. -/
def setBrightnessData (pct : Nat) : List Nat :=
  ((List.replicate 11 0).set 0 SETbyte).set 1 (setBrightnessByte pct)

/-- The specification's conversion `byte = round(pct * 255/100)`, rounding
half up; written from the spec's words, for comparison only. -/
def specRoundByte (pct : Nat) : Nat := (pct * 255 * 2 + 100) / 200

/-! ## Concrete oracles used as test inputs -/

/-- A healthy oracle: the device is cached with resolved services, every BLE
call succeeds; `set_power` is made to fail so that SET and GET outcomes are
observably different. -/
def envBase : Env where
  cached := true
  getDevice := .found
  servicesSet := true
  isConnected := some true
  pairEnsure := true
  connectEnsure := true
  setServicesEnsure := true
  connectCmd := true
  pairCmd := true
  disconnectCmd := true
  setPower := fun _ => false
  getPower := some true
  setBrightness := fun _ => true
  getBrightness := some 100
  setColor := fun _ => true
  getColor := some [1, 2, 3, 4]
  getName := some (some [104, 117, 101])
  search := fun _ => none

/-- An oracle for a freshly discovered device whose `try_pair` fails during
the ready-ensure block. -/
def envPairFail : Env :=
  { envBase with cached := false, servicesSet := false, pairEnsure := false }

/-- An oracle whose name search succeeds with a single streamed hit. -/
def envSearch : Env :=
  { envBase with search := fun _ => some [([1, 2, 3, 4, 5, 6], [104, 117, 101])] }

/-! ## Helper lemmas -/

theorem mkBuffer_pad_length (addr : List Nat) :
    (addr.take 6 ++ List.replicate (6 - addr.length) 0).length = 6 := by
  simp only [List.length_append, List.length_take, List.length_replicate]
  omega

/-- The dispatcher parse of a client-framed buffer: the flag bytes are
reassembled, the mode byte is compared against `SET`, and the data block is
passed through. -/
theorem processConn_mkBuffer (env : Env) (addr : List Nat) (fl mode : Nat)
    (d : List Nat) :
    processConn env (mkBuffer addr fl mode d) =
      processCore env ((((fl >>> 8) &&& 255) <<< 8) ||| (fl &&& 255))
        (mode == 1) d := by
  have hlen := mkBuffer_pad_length addr
  unfold processConn bufFlags bufSet mkBuffer SETbyte
  rw [List.append_assoc, List.append_assoc]
  set pad := addr.take 6 ++ List.replicate (6 - addr.length) 0 with hpad
  set rest := [fl &&& 255, (fl >>> 8) &&& 255] ++ ([mode] ++ d) with hrest
  have h6 : (pad ++ rest).getD 6 0 = fl &&& 255 := by
    rw [List.getD_append_right _ _ _ _ (by omega)]
    simp [hlen, hrest]
  have h7 : (pad ++ rest).getD 7 0 = (fl >>> 8) &&& 255 := by
    rw [List.getD_append_right _ _ _ _ (by omega)]
    simp [hlen, hrest]
  have h8 : (pad ++ rest).getD 8 0 = mode := by
    rw [List.getD_append_right _ _ _ _ (by omega)]
    simp [hlen, hrest]
  have hd : (pad ++ rest).drop 9 = d := by
    rw [show (9 : Nat) = pad.length + 3 by omega, List.drop_append]
    simp [hrest]
  rw [h6, h7, h8, hd]

theorem getD_zero_set_of_ne (l : List Nat) (n v : Nat) (h : n ≠ 0) :
    (l.set n v).getD 0 0 = l.getD 0 0 := by
  cases l with
  | nil => rfl
  | cons a t =>
    cases n with
    | zero => exact absurd rfl h
    | succ m => rfl

theorem getD_zero_set_zero (l : List Nat) (v : Nat) (h : l ≠ []) :
    (l.set 0 v).getD 0 0 = v := by
  cases l with
  | nil => exact absurd rfl h
  | cons a t => rfl

theorem writeBytes_length (bs : List Nat) : ∀ (l : List Nat) (off : Nat),
    (writeBytes l off bs).length = l.length := by
  induction bs with
  | nil => intro l off; rfl
  | cons b rest ih =>
    intro l off
    rw [writeBytes, ih, List.length_set]

theorem writeBytes_getD_zero (bs : List Nat) : ∀ (l : List Nat) (k : Nat),
    (writeBytes l (k + 1) bs).getD 0 0 = l.getD 0 0 := by
  induction bs with
  | nil => intro l k; rfl
  | cons b rest ih =>
    intro l k
    rw [writeBytes, ih, getD_zero_set_of_ne _ _ _ (Nat.succ_ne_zero k)]

theorem execCommand_snd (env : Env) (set : Bool) (data ob : List Nat)
    (c : Command) :
    (execCommand env set data ob c).2 = commandCode env set data c := by
  cases c <;> simp only [execCommand, commandCode] <;>
    (repeat
      first
      | rfl
      | split) <;>
    simp_all

theorem execCommand_length (env : Env) (set : Bool) (data ob : List Nat)
    (c : Command) :
    ((execCommand env set data ob c).1).length = ob.length := by
  cases c <;> simp only [execCommand] <;>
    repeat
      first
      | rfl
      | rw [List.length_set]
      | rw [writeBytes_length]
      | split

theorem execCommand_getD_zero (env : Env) (set : Bool) (data ob : List Nat)
    (c : Command) :
    ((execCommand env set data ob c).1).getD 0 0 = ob.getD 0 0 := by
  cases c <;> simp only [execCommand] <;>
    repeat
      first
      | rfl
      | rw [getD_zero_set_of_ne _ _ _ (by omega)]
      | rw [writeBytes_getD_zero]
      | split

theorem resCode_le_one (b : Bool) : resCode b ≤ 1 := by
  unfold resCode
  split <;> omega

theorem commandCode_le_one (env : Env) (set : Bool) (data : List Nat)
    (c : Command) (v : Nat) (h : commandCode env set data c = some v) :
    v ≤ 1 := by
  rcases hp : env.getPower with _ | p <;>
    rcases hb : env.getBrightness with _ | bv <;>
    rcases hc : env.getColor with _ | cv <;>
    rcases hn : env.getName with _ | nv <;>
    cases c <;>
    simp only [commandCode, hp, hb, hc, hn] at h <;>
    (repeat split at h) <;>
    cases h <;>
    first
    | exact resCode_le_one _
    | omega

theorem commandCode_isSome (env : Env) (set : Bool) (data : List Nat)
    (c : Command) (hc : c ≠ Command.Connect) (hs : c ≠ Command.SearchName) :
    ∃ v, commandCode env set data c = some v := by
  cases c <;> simp only [commandCode] <;>
    repeat
      first
      | exact absurd rfl hc
      | exact absurd rfl hs
      | exact ⟨_, rfl⟩
      | split

theorem runCommands_cons_none (env : Env) (set : Bool) (data : List Nat)
    (c : Command) (rest : List Command) (ob : List Nat)
    (h : commandCode env set data c = none) :
    runCommands env set data (c :: rest) ob =
      runCommands env set data rest (execCommand env set data ob c).1 := by
  simp only [runCommands]
  rw [execCommand_snd, h]

theorem runCommands_cons_some (env : Env) (set : Bool) (data : List Nat)
    (c : Command) (rest : List Command) (ob : List Nat) (v : Nat)
    (h : commandCode env set data c = some v) :
    runCommands env set data (c :: rest) ob =
      runCommands env set data rest
        ((execCommand env set data ob c).1.set 0
          (min ((execCommand env set data ob c).1.getD 0 0) v)) := by
  simp only [runCommands]
  rw [execCommand_snd, h]

theorem execCommand_fst_ne_nil (env : Env) (set : Bool) (data ob : List Nat)
    (c : Command) (hob : ob ≠ []) : (execCommand env set data ob c).1 ≠ [] := by
  intro hnil
  have hl := execCommand_length env set data ob c
  rw [hnil] at hl
  exact hob (List.eq_nil_of_length_eq_zero hl.symm)

theorem runCommands_getD_zero (env : Env) (set : Bool) (data : List Nat) :
    ∀ (cmds : List Command) (ob : List Nat), ob ≠ [] →
      (runCommands env set data cmds ob).getD 0 0 =
        List.foldl min (ob.getD 0 0) (cmds.filterMap (commandCode env set data)) := by
  intro cmds
  induction cmds with
  | nil => intro ob _; rfl
  | cons c rest ih =>
    intro ob hob
    have hfne := execCommand_fst_ne_nil env set data ob c hob
    rcases hv : commandCode env set data c with _ | v
    · rw [runCommands_cons_none env set data c rest ob hv,
          List.filterMap_cons_none hv, ih _ hfne, execCommand_getD_zero]
    · have hset : (execCommand env set data ob c).1.set 0
          (min ((execCommand env set data ob c).1.getD 0 0) v) ≠ [] := by
        intro hnil
        have hl := List.length_set (execCommand env set data ob c).1 0
          (min ((execCommand env set data ob c).1.getD 0 0) v)
        rw [hnil] at hl
        exact hfne (List.eq_nil_of_length_eq_zero hl.symm)
      rw [runCommands_cons_some env set data c rest ob v hv,
          List.filterMap_cons_some hv, ih _ hset,
          getD_zero_set_zero _ _ hfne, execCommand_getD_zero, List.foldl_cons]

theorem foldl_min_le_mem (l : List Nat) : ∀ (a x : Nat), x ∈ l →
    List.foldl min a l ≤ x := by
  induction l with
  | nil => intro a x hx; cases hx
  | cons b rest ih =>
    intro a x hx
    rw [List.foldl_cons]
    rcases List.mem_cons.mp hx with rfl | hx
    · calc List.foldl min (min a x) rest ≤ min a x := by
            clear ih hx
            induction rest generalizing a x with
            | nil => exact le_refl _
            | cons c t iht =>
              rw [List.foldl_cons]
              exact le_trans (iht _ _) (min_le_left _ _)
          _ ≤ x := min_le_right _ _
    · exact ih _ _ hx

theorem foldl_min_init (l : List Nat) : ∀ (a : Nat), List.foldl min a l ≤ a := by
  induction l with
  | nil => intro a; exact le_refl _
  | cons b rest ih =>
    intro a
    rw [List.foldl_cons]
    exact le_trans (ih _) (min_le_left _ _)

theorem initialOutputBuf_getD_zero : initialOutputBuf.getD 0 0 = 255 := by decide

theorem initialOutputBuf_ne_nil : initialOutputBuf ≠ [] := by decide

theorem loopOutput_getD_zero (env : Env) (fl : Nat) (set : Bool)
    (data : List Nat) :
    (loopOutput env fl set data).getD 0 0 =
      List.foldl min 255 (executedCodes env set data (getCommandsFromFlags fl)) := by
  unfold loopOutput executedCodes
  by_cases hC : Command.Connect ∈ getCommandsFromFlags fl
  · simp only [hC, if_true]
    have hne : initialOutputBuf.set 0
        (min (initialOutputBuf.getD 0 0) (resCode env.connectCmd)) ≠ [] := by
      intro hnil
      have hl := List.length_set initialOutputBuf 0
        (min (initialOutputBuf.getD 0 0) (resCode env.connectCmd))
      rw [hnil] at hl
      exact initialOutputBuf_ne_nil (List.eq_nil_of_length_eq_zero hl.symm)
    rw [runCommands_getD_zero env set data _ _ hne,
        getD_zero_set_zero _ _ initialOutputBuf_ne_nil,
        initialOutputBuf_getD_zero, List.foldl_cons]
  · simp only [hC, if_false]
    rw [runCommands_getD_zero env set data _ _ initialOutputBuf_ne_nil,
        initialOutputBuf_getD_zero]

theorem processCore_main (env : Env) (fl : Nat) (set : Bool) (data : List Nat)
    (hnosearch : Command.SearchName ∉ getCommandsFromFlags fl)
    (hobtain : env.cached = true ∨ env.getDevice = GetDev.found)
    (hready : (env.cached && env.servicesSet) = true ∨
      (env.pairEnsure = true ∧ env.connectEnsure = true ∧
        env.setServicesEnsure = true))
    (hnotshort : ¬ (getCommandsFromFlags fl = [Command.Connect] ∧ set = false)) :
    processCore env fl set data =
      if (loopOutput env fl set data).getD 0 0 = 255 then ⟨[], true⟩
      else ⟨[loopOutput env fl set data], true⟩ := by
  have hacq : (if env.cached = true then none
      else match env.getDevice with
        | GetDev.timeout => some 2
        | GetDev.errGet => some 1
        | GetDev.notFound => some 2
        | GetDev.found => none) = (none : Option Nat) := by
    rcases hobtain with h | h
    · rw [if_pos h]
    · by_cases hcach : env.cached = true
      · rw [if_pos hcach]
      · rw [if_neg hcach, h]
  have h1 : ¬ ((env.cached && env.servicesSet) = false ∧ env.pairEnsure = false) := by
    rcases hready with h | h
    · simp [h]
    · simp [h.1]
  have h2 : ¬ ((env.cached && env.servicesSet) = false ∧ env.connectEnsure = false) := by
    rcases hready with h | h
    · simp [h]
    · simp [h.2.1]
  have h3 : ¬ ((env.cached && env.servicesSet) = false ∧
      env.setServicesEnsure = false) := by
    rcases hready with h | h
    · simp [h]
    · simp [h.2.2]
  simp only [processCore]
  rw [if_neg hnosearch, hacq]
  rw [if_neg hnotshort, if_neg h1, if_neg h2, if_neg h3]

theorem processCore_device_path (env : Env) (fl : Nat) (set : Bool)
    (data : List Nat)
    (hnosearch : Command.SearchName ∉ getCommandsFromFlags fl)
    (hobtain : env.cached = true ∨ env.getDevice = GetDev.found) :
    processCore env fl set data =
      (if getCommandsFromFlags fl = [Command.Connect] ∧ set = false then
        match env.isConnected with
        | some st => ⟨[(initialOutputBuf.set 0 0).set 1 (if st then 1 else 0)], true⟩
        | none => ⟨[initialOutputBuf.set 0 1], true⟩
      else if (env.cached && env.servicesSet) = false ∧ env.pairEnsure = false then
        ⟨[], false⟩
      else if (env.cached && env.servicesSet) = false ∧ env.connectEnsure = false then
        ⟨[], false⟩
      else if (env.cached && env.servicesSet) = false ∧
          env.setServicesEnsure = false then
        ⟨[], false⟩
      else if (loopOutput env fl set data).getD 0 0 = 255 then ⟨[], true⟩
      else ⟨[loopOutput env fl set data], true⟩) := by
  have hacq : (if env.cached = true then none
      else match env.getDevice with
        | GetDev.timeout => some 2
        | GetDev.errGet => some 1
        | GetDev.notFound => some 2
        | GetDev.found => none) = (none : Option Nat) := by
    rcases hobtain with h | h
    · rw [if_pos h]
    · by_cases hcach : env.cached = true
      · rw [if_pos hcach]
      · rw [if_neg hcach, h]
  simp only [processCore]
  rw [if_neg hnosearch, hacq]

theorem executedCodes_le_one (env : Env) (set : Bool) (data : List Nat)
    (cmds : List Command) (v : Nat)
    (hv : v ∈ executedCodes env set data cmds) : v ≤ 1 := by
  unfold executedCodes at hv
  have hmem : ∀ l : List Command, v ∈ l.filterMap (commandCode env set data) → v ≤ 1 := by
    intro l hl
    obtain ⟨c, _, hc⟩ := List.mem_filterMap.mp hl
    exact commandCode_le_one env set data c v hc
  split at hv
  · rcases List.mem_cons.mp hv with rfl | hv
    · exact resCode_le_one _
    · exact hmem _ hv
  · exact hmem _ hv

theorem executedCodes_ne_nil (env : Env) (set : Bool) (data : List Nat)
    (cmds : List Command) (hne : cmds ≠ [])
    (hnosearch : Command.SearchName ∉ cmds) :
    executedCodes env set data cmds ≠ [] := by
  unfold executedCodes
  split
  · simp
  · rename_i hC
    cases cmds with
    | nil => exact absurd rfl hne
    | cons c0 rest =>
      have hc0 : c0 ≠ Command.Connect := by
        intro h
        exact hC (h ▸ List.mem_cons_self c0 rest)
      have hs0 : c0 ≠ Command.SearchName := by
        intro h
        exact hnosearch (h ▸ List.mem_cons_self c0 rest)
      obtain ⟨v, hv⟩ := commandCode_isSome env set data c0 hc0 hs0
      rw [List.filterMap_cons_some hv]
      simp

theorem foldl_min_executedCodes_le_one (env : Env) (set : Bool)
    (data : List Nat) (cmds : List Command) (hne : cmds ≠ [])
    (hnosearch : Command.SearchName ∉ cmds) :
    List.foldl min 255 (executedCodes env set data cmds) ≤ 1 := by
  have hnn := executedCodes_ne_nil env set data cmds hne hnosearch
  cases hcodes : executedCodes env set data cmds with
  | nil => exact absurd hcodes hnn
  | cons v rest =>
    have hv : v ∈ executedCodes env set data cmds := by
      rw [hcodes]
      exact List.mem_cons_self v rest
    have h1 := executedCodes_le_one env set data cmds v hv
    have h2 := foldl_min_le_mem (executedCodes env set data cmds) 255 v hv
    rw [hcodes] at h2
    try rw [hcodes]
    omega

theorem sublist_if_cons (P : Prop) [Decidable P] (x : Command)
    (l t : List Command) (h : List.Sublist l t) :
    List.Sublist ((if P then [x] else []) ++ l) (x :: t) := by
  split
  · exact List.Sublist.cons₂ x h
  · simpa using List.Sublist.cons x h

theorem getCommands_sublist_canonical (fl : Nat) :
    List.Sublist (getCommandsFromFlags fl) canonicalCommandOrder := by
  unfold getCommandsFromFlags canonicalCommandOrder
  simp only [List.append_assoc]
  apply sublist_if_cons
  apply sublist_if_cons
  apply sublist_if_cons
  apply sublist_if_cons
  apply sublist_if_cons
  apply sublist_if_cons
  apply sublist_if_cons
  apply sublist_if_cons
  apply sublist_if_cons
  split <;> simp

theorem foldl_min_mem_or_init (l : List Nat) : ∀ (a : Nat),
    List.foldl min a l = a ∨ List.foldl min a l ∈ l := by
  induction l with
  | nil => intro a; exact Or.inl rfl
  | cons b rest ih =>
    intro a
    rw [List.foldl_cons]
    rcases ih (min a b) with h | h
    · rcases Nat.le_total a b with hab | hab
      · exact Or.inl (by rw [h, min_eq_left hab])
      · refine Or.inr ?_
        rw [h, min_eq_right hab]
        exact List.mem_cons_self b rest
    · exact Or.inr (List.mem_cons_of_mem b h)


/-! ## Claim theorems -/

/-- C9: every `OutputCode` value survives the byte round trip
(`from_u8(to_u8(c)) = c`), the code-to-byte conversion is injective, and the
assignment is the stable `Success = 0`, `Failure = 1`, `DeviceNotFound = 2`,
`Streaming = 3`, `StreamEOF = 4`. -/
theorem outputCode_roundtrip_injective_stable :
    (∀ c : OutputCode, outputCodeFromU8 (outputCodeToU8 c) = some c) ∧
    (∀ d₁ d₂ : OutputCode, outputCodeToU8 d₁ = outputCodeToU8 d₂ → d₁ = d₂) ∧
    outputCodeToU8 OutputCode.Success = 0 ∧
    outputCodeToU8 OutputCode.Failure = 1 ∧
    outputCodeToU8 OutputCode.DeviceNotFound = 2 ∧
    outputCodeToU8 OutputCode.Streaming = 3 ∧
    outputCodeToU8 OutputCode.StreamEOF = 4 := by
  refine ⟨?_, ?_, rfl, rfl, rfl, rfl, rfl⟩
  · intro c
    cases c <;> rfl
  · intro d₁ d₂ h
    cases d₁ <;> cases d₂ <;>
      first
      | rfl
      | exact absurd h (by decide)

/-- Witness for C9: the injectivity conjunct applied at `Streaming`. -/
theorem outputCode_roundtrip_witness : OutputCode.Streaming = OutputCode.Streaming :=
  outputCode_roundtrip_injective_stable.2.1 OutputCode.Streaming OutputCode.Streaming rfl

/-- C10: for every byte `b ≥ 5`, `From<u8> for OutputCode` panics (modelled:
returns no value), so the client response parser `receive_packet_from_daemon`,
which applies it to the first byte of every received frame, is not total. -/
theorem outputCodeFromU8_panics_ge_five (b : Nat) (hb : 5 ≤ b) :
    outputCodeFromU8 b = none ∧
      ∀ payload : List Nat, receivePacketParse (b :: payload) = none := by
  obtain ⟨n, rfl⟩ : ∃ n, b = n + 5 := ⟨b - 5, by omega⟩
  have h : outputCodeFromU8 (n + 5) = none := rfl
  refine ⟨h, ?_⟩
  intro payload
  unfold receivePacketParse
  simp [h]

/-- Witness for C10 at byte `5` and a zero payload. -/
theorem outputCodeFromU8_panics_witness :
    outputCodeFromU8 5 = none ∧
      receivePacketParse (5 :: List.replicate 19 0) = none :=
  ⟨(outputCodeFromU8_panics_ge_five 5 (by decide)).1,
   (outputCodeFromU8_panics_ge_five 5 (by decide)).2 (List.replicate 19 0)⟩

/-- C7 counterexample: the client `set_brightness` byte for a 50 % request is
`127`, which differs from `round(50 * 255/100) = round(127.5) = 128`; the
claim's rounding formula and its own example `127` cannot both hold, and the
code truncates. -/
theorem setBrightness_not_round_counterexample :
    (setBrightnessData 50).getD 1 0 = 127 ∧ specRoundByte 50 = 128 ∧
      ¬ (setBrightnessData 50).getD 1 0 = specRoundByte 50 := by decide

/-- C7 (amended): `set_brightness` converts the percentage with a truncating
cast, `byte = pct * 255 / 100` rounded toward zero, placed at data offset 1
with the `SET` marker at offset 0; in particular a 50 % request produces data
byte 127. -/
theorem setBrightness_truncates :
    (∀ pct : Nat, pct ≤ 100 →
        (setBrightnessData pct).getD 1 0 = pct * 255 / 100 ∧
          (setBrightnessData pct).getD 0 0 = SETbyte) ∧
      (setBrightnessData 50).getD 1 0 = 127 := by
  constructor
  · intro pct hp
    exact ⟨rfl, rfl⟩
  · decide

/-- Witness for C7 at 77 %. -/
theorem setBrightness_truncates_witness :
    (setBrightnessData 77).getD 1 0 = 77 * 255 / 100 ∧
      (setBrightnessData 77).getD 0 0 = SETbyte :=
  setBrightness_truncates.1 77 (by decide)

/-- C8 counterexample: two request frames that differ only in the non-zero
mode byte (`1` vs `2`) are processed differently: with the `POWER` flag the
first takes the SET path and the second the GET path. -/
theorem mode_byte_two_differs_counterexample :
    processConn envBase (mkBuffer (List.replicate 6 0) 8 1 (List.replicate 10 0)) ≠
      processConn envBase (mkBuffer (List.replicate 6 0) 8 2 (List.replicate 10 0)) := by
  decide

/-- C8 (amended): the dispatcher treats the mode byte as `SET` exactly when it
equals `1` (`buf[8] == SET`); any two frames that agree except in mode bytes
both different from `1` are processed identically. -/
theorem mode_byte_not_one_is_get (env : Env) (addr : List Nat) (fl : Nat)
    (d : List Nat) (m₁ m₂ : Nat) (h₁ : ¬ m₁ = 1) (h₂ : ¬ m₂ = 1) :
    processConn env (mkBuffer addr fl m₁ d) =
      processConn env (mkBuffer addr fl m₂ d) := by
  rw [processConn_mkBuffer, processConn_mkBuffer]
  have e₁ : (m₁ == 1) = false := by simp [h₁]
  have e₂ : (m₂ == 1) = false := by simp [h₂]
  rw [e₁, e₂]

/-- Witness for C8: mode bytes `0` and `2` yield the same result. -/
theorem mode_byte_not_one_witness :
    processConn envBase (mkBuffer (List.replicate 6 0) 8 0 (List.replicate 10 0)) =
      processConn envBase (mkBuffer (List.replicate 6 0) 8 2 (List.replicate 10 0)) :=
  mode_byte_not_one_is_get envBase (List.replicate 6 0) 8 (List.replicate 10 0)
    0 2 (by decide) (by decide)

/-- C2 counterexample: on an all-zero request frame addressed to a device the
daemon holds (services resolved), the dispatcher writes no frame at all — in
particular not the single `Success` frame with zero payload the claim
requires. -/
theorem zero_flags_no_frame_counterexample :
    (processConn envBase (List.replicate 19 0)).frames = [] ∧
      ¬ (processConn envBase (List.replicate 19 0)).frames = [outputCodeFrame 0] := by
  decide

/-- C2 (amended): for an all-zero `flags` field addressed to a device the
daemon can obtain (and whose ready-ensure succeeds or is unnecessary), the
command list is empty, the `0xFF` sentinel in the output buffer is never
overwritten, and the dispatcher skips the final send: no response frame is
written, while the registry keeps the entry. -/
theorem zero_flags_sends_nothing (env : Env) (buf : List Nat)
    (hflags : bufFlags buf = 0)
    (hobtain : env.cached = true ∨ env.getDevice = GetDev.found)
    (hready : (env.cached && env.servicesSet) = true ∨
      (env.pairEnsure = true ∧ env.connectEnsure = true ∧
        env.setServicesEnsure = true)) :
    (processConn env buf).frames = [] ∧
      (processConn env buf).registryHasDevice = true := by
  have hcmds : getCommandsFromFlags (bufFlags buf) = [] := by
    rw [hflags]
    decide
  have hns : Command.SearchName ∉ getCommandsFromFlags (bufFlags buf) := by
    rw [hcmds]
    simp
  have hshort : ¬ (getCommandsFromFlags (bufFlags buf) = [Command.Connect] ∧
      bufSet buf = false) := by
    rw [hcmds]
    simp
  have hmain := processCore_main env (bufFlags buf) (bufSet buf) (buf.drop 9)
    hns hobtain hready hshort
  have hloop : (loopOutput env (bufFlags buf) (bufSet buf) (buf.drop 9)).getD 0 0 = 255 := by
    rw [loopOutput_getD_zero, hcmds]
    simp [executedCodes]
  rw [processConn, hmain, if_pos hloop]
  exact ⟨rfl, rfl⟩

/-- Witness for C2 on a literal all-zero frame and a healthy cached device. -/
theorem zero_flags_sends_nothing_witness :
    (processConn envBase (List.replicate 19 0)).frames = [] ∧
      (processConn envBase (List.replicate 19 0)).registryHasDevice = true :=
  zero_flags_sends_nothing envBase (List.replicate 19 0) (by decide)
    (by decide) (by decide)

/-- C1 counterexample: a fully read `POWER` SET request for a freshly
discovered device whose `try_pair` fails is answered with no response frame at
all, while the registry entry is evicted — the dispatcher does not report the
failure to the client. -/
theorem ensure_failure_silent_counterexample :
    (processConn envPairFail
        (mkBuffer (List.replicate 6 0) 8 1 (List.replicate 10 0))).frames = [] ∧
      (processConn envPairFail
        (mkBuffer (List.replicate 6 0) 8 1 (List.replicate 10 0))).registryHasDevice
        = false := by
  decide

/-- C1 (amended): when pair, connect, or set_services fails during the
ready-ensure step, the dispatcher evicts the device entry and writes no
response frame; in every other fully processed case, at least one
`OUTPUT_LEN`-byte response frame is written before the connection closes:
for a non-search request with a non-empty decoded command list, and for a
name-search request whose stream does not panic before its first frame
(`Streaming` frames plus `StreamEOF`, or a single `DeviceNotFound`). -/
theorem dispatcher_response_amended (env : Env) (buf : List Nat) :
    ((Command.SearchName ∉ getCommandsFromFlags (bufFlags buf)) →
      (env.cached = true ∨ env.getDevice = GetDev.found) →
      ¬ (getCommandsFromFlags (bufFlags buf) = [Command.Connect] ∧
          bufSet buf = false) →
      (env.cached && env.servicesSet) = false →
      ¬ (env.pairEnsure = true ∧ env.connectEnsure = true ∧
          env.setServicesEnsure = true) →
      (processConn env buf).frames = [] ∧
        (processConn env buf).registryHasDevice = false) ∧
    ((Command.SearchName ∉ getCommandsFromFlags (bufFlags buf)) →
      getCommandsFromFlags (bufFlags buf) ≠ [] →
      ((env.cached && env.servicesSet) = true ∨
        (env.pairEnsure = true ∧ env.connectEnsure = true ∧
          env.setServicesEnsure = true)) →
      (processConn env buf).frames ≠ []) ∧
    ((Command.SearchName ∈ getCommandsFromFlags (bufFlags buf)) →
      env.search ((buf.drop 9).filter (fun b => ¬ b = 0)) ≠ none →
      (processConn env buf).frames ≠ []) := by
  refine ⟨?_, ?_, ?_⟩
  · intro hnosearch hobtain hnotshort hneed hfail
    rw [processConn,
      processCore_device_path env (bufFlags buf) (bufSet buf) (buf.drop 9)
        hnosearch hobtain,
      if_neg hnotshort]
    by_cases hp : env.pairEnsure = false
    · rw [if_pos ⟨hneed, hp⟩]
      exact ⟨rfl, rfl⟩
    · by_cases hc : env.connectEnsure = false
      · rw [if_neg (fun hand => hp hand.2), if_pos ⟨hneed, hc⟩]
        exact ⟨rfl, rfl⟩
      · by_cases hs : env.setServicesEnsure = false
        · rw [if_neg (fun hand => hp hand.2), if_neg (fun hand => hc hand.2),
            if_pos ⟨hneed, hs⟩]
          exact ⟨rfl, rfl⟩
        · exfalso
          apply hfail
          refine ⟨?_, ?_, ?_⟩
          · cases hv : env.pairEnsure
            · exact absurd hv hp
            · rfl
          · cases hv : env.connectEnsure
            · exact absurd hv hc
            · rfl
          · cases hv : env.setServicesEnsure
            · exact absurd hv hs
            · rfl
  · intro hnosearch hne hready
    by_cases hobt : env.cached = true ∨ env.getDevice = GetDev.found
    · by_cases hshort : getCommandsFromFlags (bufFlags buf) = [Command.Connect] ∧
          bufSet buf = false
      · rw [processConn,
          processCore_device_path env (bufFlags buf) (bufSet buf) (buf.drop 9)
            hnosearch hobt,
          if_pos hshort]
        cases env.isConnected <;> simp
      · rw [processConn,
          processCore_main env (bufFlags buf) (bufSet buf) (buf.drop 9)
            hnosearch hobt hready hshort]
        have hle := foldl_min_executedCodes_le_one env (bufSet buf) (buf.drop 9)
          (getCommandsFromFlags (bufFlags buf)) hne hnosearch
        have hno : (loopOutput env (bufFlags buf) (bufSet buf) (buf.drop 9)).getD 0 0 ≠ 255 := by
          rw [loopOutput_getD_zero]
          omega
        rw [if_neg hno]
        simp
    · have hcf : env.cached = false := by
        cases hv : env.cached
        · rfl
        · exact absurd (Or.inl hv) hobt
      simp only [processConn, processCore]
      rw [if_neg hnosearch]
      cases hgd : env.getDevice <;> simp [hcf, hgd]
      exact absurd (Or.inr hgd) hobt

  · intro hmem hsearch
    simp only [processConn, processCore]
    rw [if_pos hmem]
    rcases hs : env.search ((buf.drop 9).filter (fun b => ¬ b = 0)) with _ | found
    · exact absurd hs hsearch
    · by_cases hf : found = []
      · simp [hf]
      · simp [hf]

/-- Witness for C1: the silent-eviction part on the failed-pair oracle, the
response guarantee on the healthy oracle, and the search-branch guarantee on
the streaming oracle. -/
theorem dispatcher_response_amended_witness :
    ((processConn envPairFail
        (mkBuffer (List.replicate 6 0) 8 1 (List.replicate 10 0))).frames = [] ∧
      (processConn envPairFail
        (mkBuffer (List.replicate 6 0) 8 1 (List.replicate 10 0))).registryHasDevice
        = false) ∧
      (processConn envBase
        (mkBuffer (List.replicate 6 0) 8 1 (List.replicate 10 0))).frames ≠ [] ∧
      (processConn envSearch
        (mkBuffer (List.replicate 6 0) 512 0 (List.replicate 10 0))).frames ≠ [] :=
  ⟨(dispatcher_response_amended envPairFail
      (mkBuffer (List.replicate 6 0) 8 1 (List.replicate 10 0))).1
      (by decide) (by decide) (by decide) (by decide) (by decide),
   (dispatcher_response_amended envBase
      (mkBuffer (List.replicate 6 0) 8 1 (List.replicate 10 0))).2.1
      (by decide) (by decide) (by decide),
   (dispatcher_response_amended envSearch
      (mkBuffer (List.replicate 6 0) 512 0 (List.replicate 10 0))).2.2
      (by decide) (by decide)⟩

/-- C4: on the ready path with at least two decoded commands (and no name
search), the decoded list is a sublist of the canonical order (`CONNECT`
first, then `PAIR, POWER, COLOR_RGB, COLOR_HEX, COLOR_XY, BRIGHTNESS,
DISCONNECT, NAME`), the dispatcher writes exactly one response frame — the
loop's output buffer — and its code byte equals the minimum over the
per-command byte-valued codes produced, priority `CONNECT` included. -/
theorem dispatcher_code_is_min (env : Env) (buf : List Nat)
    (hnosearch : Command.SearchName ∉ getCommandsFromFlags (bufFlags buf))
    (hlen : 2 ≤ (getCommandsFromFlags (bufFlags buf)).length)
    (hobtain : env.cached = true ∨ env.getDevice = GetDev.found)
    (hready : (env.cached && env.servicesSet) = true ∨
      (env.pairEnsure = true ∧ env.connectEnsure = true ∧
        env.setServicesEnsure = true)) :
    List.Sublist (getCommandsFromFlags (bufFlags buf)) canonicalCommandOrder ∧
    (processConn env buf).frames =
      [loopOutput env (bufFlags buf) (bufSet buf) (buf.drop 9)] ∧
    (loopOutput env (bufFlags buf) (bufSet buf) (buf.drop 9)).getD 0 0 ∈
      executedCodes env (bufSet buf) (buf.drop 9)
        (getCommandsFromFlags (bufFlags buf)) ∧
    ∀ v ∈ executedCodes env (bufSet buf) (buf.drop 9)
        (getCommandsFromFlags (bufFlags buf)),
      (loopOutput env (bufFlags buf) (bufSet buf) (buf.drop 9)).getD 0 0 ≤ v := by
  have hne : getCommandsFromFlags (bufFlags buf) ≠ [] := by
    intro h
    rw [h] at hlen
    simp at hlen
  have hshort : ¬ (getCommandsFromFlags (bufFlags buf) = [Command.Connect] ∧
      bufSet buf = false) := by
    rintro ⟨h, _⟩
    rw [h] at hlen
    simp at hlen
  have hle := foldl_min_executedCodes_le_one env (bufSet buf) (buf.drop 9)
    (getCommandsFromFlags (bufFlags buf)) hne hnosearch
  have hloop := loopOutput_getD_zero env (bufFlags buf) (bufSet buf) (buf.drop 9)
  refine ⟨getCommands_sublist_canonical _, ?_, ?_, ?_⟩
  · rw [processConn,
      processCore_main env (bufFlags buf) (bufSet buf) (buf.drop 9)
        hnosearch hobtain hready hshort,
      if_neg (by rw [hloop]; omega)]
  · rw [hloop]
    rcases foldl_min_mem_or_init
        (executedCodes env (bufSet buf) (buf.drop 9)
          (getCommandsFromFlags (bufFlags buf))) 255 with h | h
    · rw [h] at hle
      omega
    · exact h
  · intro v hv
    rw [hloop]
    exact foldl_min_le_mem _ 255 v hv

/-- Witness for C4: a `CONNECT | POWER` GET request against the healthy cached
oracle. -/
theorem dispatcher_code_is_min_witness :
    (processConn envBase
        (mkBuffer (List.replicate 6 0) 9 0 (List.replicate 10 0))).frames =
      [loopOutput envBase
        (bufFlags (mkBuffer (List.replicate 6 0) 9 0 (List.replicate 10 0)))
        (bufSet (mkBuffer (List.replicate 6 0) 9 0 (List.replicate 10 0)))
        ((mkBuffer (List.replicate 6 0) 9 0 (List.replicate 10 0)).drop 9)] :=
  (dispatcher_code_is_min envBase
    (mkBuffer (List.replicate 6 0) 9 0 (List.replicate 10 0))
    (by decide) (by decide) (by decide) (by decide)).2.1


/-! ## Colour engine lemmas -/

theorem RED_in_gamut : isWithinColorGamut RED := by
  simp only [isWithinColorGamut, RED, GREEN, BLUE]
  norm_num

theorem GREEN_in_gamut : isWithinColorGamut GREEN := by
  simp only [isWithinColorGamut, RED, GREEN, BLUE]
  norm_num

theorem BLUE_in_gamut : isWithinColorGamut BLUE := by
  simp only [isWithinColorGamut, RED, GREEN, BLUE]
  norm_num

set_option maxHeartbeats 1000000 in
/-- The barycentric in-gamut region is convex: it contains every point of a
segment between two member points. -/
theorem isWithinColorGamut_convex (A B : Xy) (hA : isWithinColorGamut A)
    (hB : isWithinColorGamut B) (t : ℝ) (h0 : 0 ≤ t) (h1 : t ≤ 1) :
    isWithinColorGamut ⟨A.x + t * (B.x - A.x), A.y + t * (B.y - A.y), none⟩ := by
  simp only [isWithinColorGamut, RED, GREEN, BLUE] at hA hB ⊢
  norm_num at hA hB ⊢
  obtain ⟨⟨a1l, a1u⟩, ⟨a2l, a2u⟩, a3l, a3u⟩ := hA
  obtain ⟨⟨b1l, b1u⟩, ⟨b2l, b2u⟩, b3l, b3u⟩ := hB
  have ht : (0:ℝ) ≤ 1 - t := by linarith
  have ha3u : (0:ℝ) ≤ _ := sub_nonneg.mpr a3l
  have hb3u : (0:ℝ) ≤ _ := sub_nonneg.mpr b3l
  have ha3s : (0:ℝ) ≤ _ := sub_nonneg.mpr a3u
  have hb3s : (0:ℝ) ≤ _ := sub_nonneg.mpr b3u
  refine ⟨⟨?_, ?_⟩, ⟨?_, ?_⟩, ?_, ?_⟩
  · nlinarith [mul_nonneg ht a1l, mul_nonneg h0 b1l]
  · nlinarith [mul_nonneg ht (sub_nonneg.mpr a1u), mul_nonneg h0 (sub_nonneg.mpr b1u)]
  · nlinarith [mul_nonneg ht a2l, mul_nonneg h0 b2l]
  · nlinarith [mul_nonneg ht (sub_nonneg.mpr a2u), mul_nonneg h0 (sub_nonneg.mpr b2u)]
  · nlinarith [mul_nonneg ht ha3u, mul_nonneg h0 hb3u]
  · nlinarith [mul_nonneg ht ha3s, mul_nonneg h0 hb3s]

/-- The parametric projection onto a segment between two in-gamut endpoints
lands in the gamut: the clamp keeps `t ∈ [0, 1]`. -/
theorem projectPointToLineSegment_in_gamut (p a b : Xy)
    (ha : isWithinColorGamut a) (hb : isWithinColorGamut b) :
    isWithinColorGamut (projectPointToLineSegment p a b) := by
  simp only [projectPointToLineSegment]
  exact isWithinColorGamut_convex a b ha hb _ (le_max_left 0 _)
    (max_le (by norm_num) (min_le_right _ _))

/-- Whichever edge `closest_point_in_triangle` selects, the result lies in the
gamut triangle. -/
theorem closestPointInTriangle_in_gamut (p : Xy) :
    isWithinColorGamut (closestPointInTriangle p RED GREEN BLUE) := by
  simp only [closestPointInTriangle]
  split_ifs
  · exact projectPointToLineSegment_in_gamut p RED GREEN RED_in_gamut GREEN_in_gamut
  · exact projectPointToLineSegment_in_gamut p GREEN BLUE GREEN_in_gamut BLUE_in_gamut
  · exact projectPointToLineSegment_in_gamut p BLUE RED BLUE_in_gamut RED_in_gamut

/-- C6: the gamut-projection step of the colour engine is the identity on
every in-gamut point, and its output always passes the barycentric in-gamut
test, so the engine never emits an xy point outside the gamut triangle. -/
theorem project_in_gamut :
    (∀ p : Xy, isWithinColorGamut p → projectToGamut p = p) ∧
    (∀ p : Xy, isWithinColorGamut (projectToGamut p)) := by
  constructor
  · intro p hp
    simp only [projectToGamut]
    rw [if_neg (not_not_intro hp)]
  · intro p
    simp only [projectToGamut]
    by_cases hp : isWithinColorGamut p
    · rw [if_neg (not_not_intro hp)]
      exact hp
    · rw [if_pos hp]
      exact closestPointInTriangle_in_gamut p

/-- Witness for C6: the projection fixes the in-gamut vertex `RED`. -/
theorem project_in_gamut_witness : projectToGamut RED = RED :=
  project_in_gamut.1 RED
    (by simp only [isWithinColorGamut, RED, GREEN, BLUE]; norm_num)

/-- C3 (code bug): on the RGB input `(10, 0, 0)` (in the linear branch of the
gamma expansion, so all arithmetic is rational), the raw chromaticity step of
`From<Rgb> for Xy` agrees with the specification formula on `x = X/(X+Y+Z)`
and `brightness = Y`, but its `y` differs from `Y/(X+Y+Z)`: the source's
second shadowing `let` divides by `x + Y + Z` with the already-normalised
`x`. -/
theorem xyFromRgbRaw_y_deviates :
    (xyFromRgbRaw ⟨10, 0, 0⟩).x = (xyFromRgbRawSpec ⟨10, 0, 0⟩).x ∧
    (xyFromRgbRaw ⟨10, 0, 0⟩).brightness = (xyFromRgbRawSpec ⟨10, 0, 0⟩).brightness ∧
    (xyFromRgbRaw ⟨10, 0, 0⟩).y ≠ (xyFromRgbRawSpec ⟨10, 0, 0⟩).y := by
  simp only [xyFromRgbRaw, xyFromRgbRawSpec]
  norm_num

/-- C5 counterexample: for the in-gamut input `(0.42235, 0.17565)` (the
midpoint of the RED-BLUE edge) at brightness `1`, the channel triple that
`Xy::to_rgb` feeds into gamma compression is not the clamped linear triple:
the red channel exceeds `1` and the other channels get divided by it. -/
theorem toRgb_not_clamped_counterexample :
    preGammaChannels ⟨0.42235, 0.17565, none⟩ 1 ≠
      (clampUnit (xyToLinearRgb ⟨0.42235, 0.17565, none⟩ 1).1,
       clampUnit (xyToLinearRgb ⟨0.42235, 0.17565, none⟩ 1).2.1,
       clampUnit (xyToLinearRgb ⟨0.42235, 0.17565, none⟩ 1).2.2) := by
  have hg : isWithinColorGamut ⟨0.42235, 0.17565, none⟩ := by
    simp only [isWithinColorGamut, RED, GREEN, BLUE]
    norm_num
  have hproj : projectToGamut ⟨0.42235, 0.17565, none⟩ = ⟨0.42235, 0.17565, none⟩ := by
    simp only [projectToGamut]
    rw [if_neg (not_not_intro hg)]
  simp only [preGammaChannels, xyToLinearRgb, normalizeChannelsPre, clampUnit, hproj]
  norm_num

/-- C5 (amended): after the inverse D65 matrix step `Xy::to_rgb` does not
clamp the channels; whenever one channel is strictly greater than the other
two and exceeds `1`, the other two channels are divided by it and it is set
to `1`, both before and after gamma compression — for a dominant red, green,
or blue channel alike. -/
theorem normalizeChannels_rescales (r g b : ℝ) :
    ((r > b → r > g → r > 1 →
      normalizeChannelsPre r g b = (1, g / r, b / r) ∧
        normalizeChannelsPost r g b = (1, g / r, b / r))) ∧
    ((g > b → g > r → g > 1 →
      normalizeChannelsPre r g b = (r / g, 1, b / g) ∧
        normalizeChannelsPost r g b = (r / g, 1, b / g))) ∧
    ((b > r → b > g → b > 1 →
      normalizeChannelsPre r g b = (r / b, g / b, 1) ∧
        normalizeChannelsPost r g b = (r / b, g / b, 1))) := by
  refine ⟨?_, ?_, ?_⟩
  · intro hrb hrg hr1
    simp only [normalizeChannelsPre, normalizeChannelsPost]
    rw [if_pos ⟨hrb, hrg, hr1⟩, if_pos ⟨hrb, hrg⟩, if_pos hr1]
    exact ⟨rfl, rfl⟩
  · intro hgb hgr hg1
    have hnr : ¬ (r > b ∧ r > g ∧ r > 1) := fun h => absurd h.2.1 (lt_asymm hgr)
    have hnr2 : ¬ (r > b ∧ r > g) := fun h => absurd h.2 (lt_asymm hgr)
    simp only [normalizeChannelsPre, normalizeChannelsPost]
    rw [if_neg hnr, if_pos ⟨hgb, hgr, hg1⟩, if_neg hnr2, if_pos ⟨hgb, hgr⟩,
      if_pos hg1]
    exact ⟨rfl, rfl⟩
  · intro hbr hbg hb1
    have hnr : ¬ (r > b ∧ r > g ∧ r > 1) := fun h => absurd h.1 (lt_asymm hbr)
    have hng : ¬ (g > b ∧ g > r ∧ g > 1) := fun h => absurd h.1 (lt_asymm hbg)
    have hnr2 : ¬ (r > b ∧ r > g) := fun h => absurd h.1 (lt_asymm hbr)
    have hng2 : ¬ (g > b ∧ g > r) := fun h => absurd h.1 (lt_asymm hbg)
    simp only [normalizeChannelsPre, normalizeChannelsPost]
    rw [if_neg hnr, if_neg hng, if_pos ⟨hbr, hbg, hb1⟩, if_neg hnr2,
      if_neg hng2, if_pos ⟨hbr, hbg⟩, if_pos hb1]
    exact ⟨rfl, rfl⟩

/-- Witness for C5: the red-dominant case at `(2, 1/2, 0)`, the
green-dominant case at `(1/2, 2, 0)`, and the blue-dominant case at
`(0, 1/2, 2)`. -/
theorem normalizeChannels_rescales_witness :
    normalizeChannelsPre (2:ℝ) (1/2) 0 = (1, (1/2)/2, 0/2) ∧
      normalizeChannelsPre (1/2:ℝ) 2 0 = ((1/2)/2, 1, 0/2) ∧
      normalizeChannelsPost (0:ℝ) (1/2) 2 = (0/2, (1/2)/2, 1) :=
  ⟨((normalizeChannels_rescales 2 (1/2) 0).1 (by norm_num) (by norm_num)
      (by norm_num)).1,
   ((normalizeChannels_rescales (1/2) 2 0).2.1 (by norm_num) (by norm_num)
      (by norm_num)).1,
   ((normalizeChannels_rescales 0 (1/2) 2).2.2 (by norm_num) (by norm_num)
      (by norm_num)).2⟩

end Rustbee
